import Mathlib

/-!
Verification of the HCPinterface repository's transfer and integrity
subsystem against its natural-language specification.

The development shallowly embeds the relevant Python code:

* `HCPI`: the `HCPInterface` package (`HCPInterface/hcp/hcp.py`) —
  the `ProgressPercentage` progress tracker, the `HCPManager.upload_file`
  checksum verification, and the checksum engine of
  `HCPInterface/hcp/helpers.py`.
* `Iris`: the `NGPIris` package (`NGPIris/hcp/hcp.py` and
  `NGPIris/hcp/helpers.py`) — folder upload, object deletion, folder
  deletion, ACL construction and the transfer-planning configuration.

Machine integers are modelled as `Int`/`Nat`, wall-clock times and
transfer rates as `ℚ`, byte strings as `List Nat`, and Python strings
either as `String` or, where character-level operations matter, as
`List Char`.  Python exceptions become explicit error results.
-/

namespace HCPI

/-- State of `ProgressPercentage` (HCPInterface/hcp/hcp.py, lines 32-74):
the instance fields `_size`, `_seen_so_far`, `_previous_time`,
`_previous_bytesize`, `_interval` and `_speed`.  The `_source` and
`_lock` fields carry no numeric state and are omitted; the lock only
serialises `__call__`, which we model as a sequential state update. -/
structure ProgressState where
  size : Int
  seen_so_far : Int
  previous_time : ℚ
  previous_bytesize : Int
  interval : ℚ
  speed : ℚ

/-- `ProgressPercentage.__init__`: the size is taken from the source
(local file size or remote object size) and the counters start at zero;
`_previous_time` is the construction time, `_interval` is 1 second and
`_speed` is 0. -/
def mkProgress (size : Int) (now : ℚ) : ProgressState :=
  ⟨size, 0, now, 0, 1, 0⟩

/-- Python's `round(x, 2)` on exact values: round half to even. -/
def roundHalfEven (q : ℚ) : ℤ :=
  if q - ⌊q⌋ < 1 / 2 then ⌊q⌋
  else if q - ⌊q⌋ > 1 / 2 then ⌊q⌋ + 1
  else if ⌊q⌋ % 2 = 0 then ⌊q⌋ else ⌊q⌋ + 1

/-- `round(x, 2)` as a rational: round to two decimal places. -/
def pyRound2 (q : ℚ) : ℚ := (roundHalfEven (q * 100) : ℚ) / 100

/-- `ProgressPercentage._calculate_speed` (hcp.py lines 54-62): when
`curr_time - self._interval > self._previous_time` a new speed is
computed as the byte delta divided by the elapsed time, converted to
MB/s (division by `1024 ** 2`) and rounded to two decimals, and the
sampling state is advanced; otherwise the stored `_speed` is returned
unchanged.  Returns the updated state and the returned `self._speed`. -/
def calculate_speed (st : ProgressState) (curr_time : ℚ) : ProgressState × ℚ :=
  if curr_time - st.interval > st.previous_time then
    let speed := ((st.seen_so_far : ℚ) - (st.previous_bytesize : ℚ)) / (curr_time - st.previous_time)
    let st' : ProgressState :=
      ⟨st.size, st.seen_so_far, curr_time, st.seen_so_far, st.interval,
        pyRound2 (speed / 1024 ^ 2)⟩
    (st', st'.speed)
  else (st, st.speed)

/-- `ProgressPercentage.__call__` (hcp.py lines 64-74) restricted to its
state change: add `bytes_amount` to `_seen_so_far`, then recompute the
speed; the stdout rendering has no effect on the state. -/
def progressCall (st : ProgressState) (bytes_amount : Int) (curr_time : ℚ) : ProgressState :=
  let st1 : ProgressState :=
    ⟨st.size, st.seen_so_far + bytes_amount, st.previous_time, st.previous_bytesize,
      st.interval, st.speed⟩
  (calculate_speed st1 curr_time).1

lemma calculate_speed_size (st : ProgressState) (t : ℚ) :
    (calculate_speed st t).1.size = st.size := by
  unfold calculate_speed
  split <;> rfl

lemma calculate_speed_interval (st : ProgressState) (t : ℚ) :
    (calculate_speed st t).1.interval = st.interval := by
  unfold calculate_speed
  split <;> rfl

lemma progressCall_size (st : ProgressState) (b : Int) (t : ℚ) :
    (progressCall st b t).size = st.size := by
  unfold progressCall
  rw [calculate_speed_size]

lemma progressCall_interval (st : ProgressState) (b : Int) (t : ℚ) :
    (progressCall st b t).interval = st.interval := by
  unfold progressCall
  rw [calculate_speed_interval]

/-- Claim C9: the total size established at construction is never
modified by any subsequent sequence of record (`__call__`) operations;
only the byte counter and the rate-estimation state may change (in
particular the sampling interval is also preserved). -/
theorem progress_total_fixed (size : Int) (t0 : ℚ) (st : ProgressState)
    (calls : List (Int × ℚ)) :
    (mkProgress size t0).size = size ∧
    (calls.foldl (fun s c => progressCall s c.1 c.2) st).size = st.size ∧
    (calls.foldl (fun s c => progressCall s c.1 c.2) st).interval = st.interval := by
  refine ⟨rfl, ?_, ?_⟩
  · induction calls generalizing st with
    | nil => rfl
    | cons c cs ih => simpa [List.foldl_cons, progressCall_size] using ih (progressCall st c.1 c.2)
  · induction calls generalizing st with
    | nil => rfl
    | cons c cs ih => simpa [List.foldl_cons, progressCall_interval] using ih (progressCall st c.1 c.2)

/-- Claim C8 (amended): a new rate is computed only when strictly more
than the configured interval has elapsed since the previous computation
(so in particular at least the interval has elapsed); when at most the
interval has elapsed the sampler returns the stored rate and leaves the
state unchanged; and the newly computed rate equals the bytes
accumulated since the previous computation divided by the elapsed time,
converted to MB/s by division by `1024 ^ 2` and rounded to two decimal
places. -/
theorem calculate_speed_rate (st : ProgressState) (now : ℚ) :
    (now - st.previous_time ≤ st.interval → calculate_speed st now = (st, st.speed)) ∧
    (now - st.previous_time > st.interval →
      (calculate_speed st now).2
          = pyRound2 ((((st.seen_so_far : ℚ) - (st.previous_bytesize : ℚ))
              / (now - st.previous_time)) / 1024 ^ 2) ∧
        (calculate_speed st now).1.previous_time = now ∧
        (calculate_speed st now).1.previous_bytesize = st.seen_so_far ∧
        (calculate_speed st now).1.speed = (calculate_speed st now).2) := by
  constructor
  · intro h
    unfold calculate_speed
    rw [if_neg]
    intro hlt
    exact absurd (by linarith) (not_lt.mpr h)
  · intro h
    unfold calculate_speed
    rw [if_pos (by linarith)]
    exact ⟨rfl, rfl, rfl, rfl⟩

/-- Witness for C8: with 2097152 bytes accumulated over 2 seconds the
recomputation branch fires, and with only half a second elapsed the
stored rate is returned unchanged. -/
theorem calculate_speed_rate_witness :
    ((2 : ℚ) - 0 > (1 : ℚ) ∧
      (calculate_speed ⟨100, 2097152, 0, 0, 1, 0⟩ 2).2
          = pyRound2 ((((2097152 : Int) : ℚ) - ((0 : Int) : ℚ)) / ((2 : ℚ) - 0) / 1024 ^ 2)) ∧
    ((1 / 2 : ℚ) - 0 ≤ (1 : ℚ) ∧
      calculate_speed ⟨100, 2097152, 0, 0, 1, 0⟩ (1 / 2) = (⟨100, 2097152, 0, 0, 1, 0⟩, 0)) :=
  ⟨⟨by norm_num, ((calculate_speed_rate ⟨100, 2097152, 0, 0, 1, 0⟩ 2).2 (by norm_num)).1⟩,
    ⟨by norm_num, (calculate_speed_rate ⟨100, 2097152, 0, 0, 1, 0⟩ (1 / 2)).1 (by norm_num)⟩⟩

/-- Counterexample for C8 as stated: with 2097152 bytes accumulated over
an elapsed time of 2 seconds the claim predicts a new rate of
`2097152 / 2 = 1048576` (bytes per second), but the code stores and
returns `1` (it converts to MB/s and rounds to two decimals). -/
theorem calculate_speed_units_cex :
    (2 : ℚ) - (0 : ℚ) > (1 : ℚ) ∧
    (calculate_speed ⟨100, 2097152, 0, 0, 1, 0⟩ 2).2 = 1 ∧
    (calculate_speed ⟨100, 2097152, 0, 0, 1, 0⟩ 2).2
        ≠ (((2097152 : Int) : ℚ) - ((0 : Int) : ℚ)) / ((2 : ℚ) - 0) := by
  have h1 : (calculate_speed ⟨100, 2097152, 0, 0, 1, 0⟩ 2).2 = 1 := by
    unfold calculate_speed
    split
    · norm_num [pyRound2, roundHalfEven]
    · next h => norm_num at h
  refine ⟨by norm_num, h1, ?_⟩
  rw [h1]
  norm_num

/-- Modelled from the spec: the streaming chunk-digest loop of
`composed_multipart_digest` (the `calculate_etag` helper imported from
`HCPInterface/hcp/helpers.py`, a file that is not among the sources).
The file is read in streaming fashion: `chunk_count` chunks of
`chunk_size` bytes are taken in order (the last chunk may be shorter)
and the raw — non-hex — `md5` digest of each chunk is appended.  The
MD5 hash itself is the external `hashlib` collaborator, so it is a
parameter of the model. -/
def chunkDigestsStream (md5 : List Nat → List Nat) (chunk_size : Nat) :
    Nat → List Nat → List Nat
  | 0, _ => []
  | n + 1, file =>
      md5 (file.take chunk_size) ++ chunkDigestsStream md5 chunk_size n (file.drop chunk_size)

/-- Modelled from the spec: `composed_multipart_digest(path, chunk_size,
chunk_count)` computes MD5 over the concatenation of the raw per-chunk
digests and returns its hex digest (`hex` being the hex encoding of the
external hash library). -/
def composed_multipart_digest (md5 : List Nat → List Nat) (hex : List Nat → String)
    (file : List Nat) (chunk_size chunk_count : Nat) : String :=
  hex (md5 (chunkDigestsStream md5 chunk_size chunk_count file))

/-- Modelled from the spec: the full multipart ETag produced by
`calculate_etag` is the composed hex digest followed by "-" and the
chunk count. -/
def calculate_etag_multipart (md5 : List Nat → List Nat) (hex : List Nat → String)
    (file : List Nat) (chunk_size chunk_count : Nat) : String :=
  composed_multipart_digest md5 hex file chunk_size chunk_count ++ "-" ++ toString chunk_count

/-- Chunk `i` of a file under the claim's chunking: bytes
`[chunk_size * i, chunk_size * i + chunk_size)` (clipped at the end of
the file). -/
def fileChunk (file : List Nat) (chunk_size i : Nat) : List Nat :=
  (file.drop (chunk_size * i)).take chunk_size

/-- The concatenation of the raw per-chunk MD5 digests taken in chunk
order, with the chunks addressed directly by their index. -/
def chunkDigestConcat (md5 : List Nat → List Nat) (file : List Nat)
    (chunk_size chunk_count : Nat) : List Nat :=
  ((List.range chunk_count).map fun i => md5 (fileChunk file chunk_size i)).flatten

lemma chunkDigestsStream_eq_join (md5 : List Nat → List Nat) (cs : Nat) :
    ∀ (cc : Nat) (file : List Nat),
      chunkDigestsStream md5 cs cc file = chunkDigestConcat md5 file cs cc := by
  intro cc
  induction cc with
  | zero => intro file; simp [chunkDigestsStream, chunkDigestConcat]
  | succ n ih =>
    intro file
    rw [chunkDigestsStream, ih (file.drop cs)]
    unfold chunkDigestConcat
    rw [List.range_succ_eq_map]
    simp only [List.map_cons, List.map_map, List.flatten, fileChunk, Nat.mul_zero,
      List.drop_zero, Function.comp]
    congr 1
    refine congrArg List.flatten (List.map_congr_left fun i _ => ?_)
    simp [List.drop_drop, Nat.mul_succ, Nat.add_comm, Function.comp]

/-- Claim C1: for every file and every valid chunking, the composed
multipart digest used for upload verification equals the hex MD5 of the
concatenation of the raw (non-hex) per-chunk MD5 digests taken in chunk
order, where the file is split into `chunk_count` chunks of
`chunk_size` bytes with the last chunk possibly shorter; the full
multipart ETag string is that hex digest followed by "-" and the chunk
count.  The hash `md5` and hex encoding `hex` are the external
`hashlib` collaborator. -/
theorem calculate_etag_composes (md5 : List Nat → List Nat) (hex : List Nat → String)
    (file : List Nat) (chunk_size chunk_count : Nat)
    (_hcs : 0 < chunk_size) (_hcc : 0 < chunk_count) :
    composed_multipart_digest md5 hex file chunk_size chunk_count
        = hex (md5 (chunkDigestConcat md5 file chunk_size chunk_count)) ∧
    calculate_etag_multipart md5 hex file chunk_size chunk_count
        = hex (md5 (chunkDigestConcat md5 file chunk_size chunk_count))
            ++ "-" ++ toString chunk_count := by
  have h : composed_multipart_digest md5 hex file chunk_size chunk_count
      = hex (md5 (chunkDigestConcat md5 file chunk_size chunk_count)) := by
    unfold composed_multipart_digest
    rw [chunkDigestsStream_eq_join]
  exact ⟨h, by rw [calculate_etag_multipart, h]⟩

/-- Witness for C1 at a five-byte file split into three two-byte chunks,
with a concrete stand-in hash. -/
theorem calculate_etag_composes_witness :
    0 < 2 ∧ 0 < 3 ∧
    (composed_multipart_digest (fun l => [l.length, l.sum]) (fun l => toString l)
          [7, 1, 2, 3, 4] 2 3
        = toString ((fun l => [l.length, l.sum])
            (chunkDigestConcat (fun l => [l.length, l.sum]) [7, 1, 2, 3, 4] 2 3)) ∧
      calculate_etag_multipart (fun l => [l.length, l.sum]) (fun l => toString l)
          [7, 1, 2, 3, 4] 2 3
        = toString ((fun l => [l.length, l.sum])
            (chunkDigestConcat (fun l => [l.length, l.sum]) [7, 1, 2, 3, 4] 2 3))
            ++ "-" ++ toString 3) :=
  ⟨by decide, by decide,
    calculate_etag_composes (fun l => [l.length, l.sum]) (fun l => toString l)
      [7, 1, 2, 3, 4] 2 3 (by decide) (by decide)⟩

/-- A remote bucket as the `HCPManager` sees it: an association list
from object key to the ETag the remote reports for that object. -/
abbrev Bucket := List (String × String)

/-- The boto3 `bucket.upload_file` collaborator: after a completed
upload the bucket holds the object under `key` with the ETag the remote
computed for it, replacing any previous object with that key. -/
def putObject (b : Bucket) (key etag : String) : Bucket :=
  (key, etag) :: b.filter fun kv => decide (kv.1 ≠ key)

/-- `HCPManager.get_object` restricted to the reported ETag: the entry
stored under the key, if any. -/
def lookupKey : Bucket → String → Option String
  | [], _ => none
  | (k, v) :: rest, key => if k = key then some v else lookupKey rest key

/-- `HCPManager.delete_object`: `bucket.delete_objects` on exactly the
given object's key. -/
def delete_object (b : Bucket) (key : String) : Bucket :=
  b.filter fun kv => decide (kv.1 ≠ key)

inductive UploadError where
  | mismatchChecksum
  | attributeError
deriving DecidableEq

/-- `HCPManager.upload_file` (HCPInterface/hcp/hcp.py lines 192-216)
after the boto3 transfer: the upload stores the object under
`remote_key` with the remotely computed ETag `remote_etag`; the code
then re-fetches the object, compares `calculate_etag(local_path)` —
abstracted as `local_etag` — with the reported ETag, and on a mismatch
deletes the just-uploaded object and raises `MismatchChecksumError`.
Returns the bucket state after the call together with its outcome. -/
def upload_file (b : Bucket) (remote_key local_etag remote_etag : String) :
    Bucket × Except UploadError Unit :=
  let b1 := putObject b remote_key remote_etag
  match lookupKey b1 remote_key with
  | none => (b1, Except.error UploadError.attributeError)
  | some e_tag =>
    if local_etag ≠ e_tag then
      (delete_object b1 remote_key, Except.error UploadError.mismatchChecksum)
    else (b1, Except.ok ())

lemma lookupKey_putObject (b : Bucket) (key etag : String) :
    lookupKey (putObject b key etag) key = some etag := by
  simp [putObject, lookupKey]

lemma lookupKey_delete_object (b : Bucket) (key : String) :
    lookupKey (delete_object b key) key = none := by
  induction b with
  | nil => rfl
  | cons kv rest ih =>
    obtain ⟨k, v⟩ := kv
    by_cases h : k = key
    · simpa [delete_object, List.filter_cons, h] using ih
    · simpa [delete_object, List.filter_cons, h, lookupKey] using ih

/-- Claim C2: when the locally computed ETag differs from the ETag the
remote reports after the upload, the just-uploaded remote object is
deleted (no object remains under the key) and the call fails with the
checksum-mismatch error; when the two ETags are equal the call returns
normally and the state is exactly the post-upload bucket, with no
deletion. -/
theorem upload_file_checksum_guard (b : Bucket) (key local_etag remote_etag : String) :
    (local_etag ≠ remote_etag →
      (upload_file b key local_etag remote_etag).2
          = Except.error UploadError.mismatchChecksum ∧
      lookupKey (upload_file b key local_etag remote_etag).1 key = none) ∧
    (local_etag = remote_etag →
      upload_file b key local_etag remote_etag = (putObject b key remote_etag, Except.ok ())) := by
  constructor
  · intro h
    simp only [upload_file, lookupKey_putObject]
    rw [if_pos h]
    exact ⟨rfl, lookupKey_delete_object _ _⟩
  · intro h
    simp only [upload_file, lookupKey_putObject]
    rw [if_neg (by simp [h])]

/-- Witness for C2: a mismatching upload fails and leaves no object
under the key; a matching upload returns normally with the object in
place. -/
theorem upload_file_checksum_guard_witness :
    (("aaaa" : String) ≠ "bbbb" ∧
      (upload_file [] "key" "aaaa" "bbbb").2 = Except.error UploadError.mismatchChecksum ∧
      lookupKey (upload_file [] "key" "aaaa" "bbbb").1 "key" = none) ∧
    upload_file [] "key" "aaaa" "aaaa" = (putObject [] "key" "aaaa", Except.ok ()) :=
  ⟨⟨by decide, (upload_file_checksum_guard [] "key" "aaaa" "bbbb").1 (by decide)⟩,
    (upload_file_checksum_guard [] "key" "aaaa" "aaaa").2 rfl⟩

end HCPI

namespace Iris

/-- `_KB` of NGPIris/hcp/hcp.py. -/
def _KB : Nat := 1024

/-- `_MB = _KB * _KB` of NGPIris/hcp/hcp.py. -/
def _MB : Nat := _KB * _KB

/-- A transfer plan: the chunk descriptors as byte ranges
`(offset, length)` plus the concurrency cap. -/
structure TransferPlan where
  chunks : List (Nat × Nat)
  max_concurrency : Nat

/-- Modelled from the spec: the chunk walk of the Transfer Planner
(`plan`), which in the repository is performed inside boto3 driven by
the `TransferConfig` built in `HCPHandler.__init__`; the planner itself
is not among the sources.  Starting at offset `off`, it emits `n`
contiguous chunks of `chunk_size` bytes, the last clipped at
`file_size`. -/
def chunksGo (chunk_size file_size : Nat) : Nat → Nat → List (Nat × Nat)
  | 0, _ => []
  | n + 1, off =>
      (off, min chunk_size (file_size - off)) :: chunksGo chunk_size file_size n (off + chunk_size)

/-- Modelled from the spec: `plan(file_size, multipart_threshold,
chunk_size, max_concurrency)` — a single-chunk plan below the multipart
threshold, otherwise `ceil(file_size / chunk_size)` chunks of
`chunk_size` bytes with the last chunk clipped. -/
def plan (file_size multipart_threshold chunk_size max_concurrency : Nat) : TransferPlan :=
  if file_size < multipart_threshold then
    ⟨[(0, file_size)], max_concurrency⟩
  else
    ⟨chunksGo chunk_size file_size ((file_size + chunk_size - 1) / chunk_size) 0,
      max_concurrency⟩

/-- The default `TransferConfig` of `HCPHandler.__init__`
(NGPIris/hcp/hcp.py lines 103-109): multipart threshold `10 * _MB`,
chunk size `40 * _MB`, concurrency 60. -/
def default_plan (file_size : Nat) : TransferPlan :=
  plan file_size (10 * _MB) (40 * _MB) 60

lemma chunksGo_length (c s n : Nat) : ∀ off, (chunksGo c s n off).length = n := by
  induction n with
  | zero => intro off; rfl
  | succ n ih => intro off; simp [chunksGo, ih]

lemma chunksGo_flatten (c s : Nat) (n : Nat) :
    ∀ off, s ≤ off + c * n →
      ((chunksGo c s n off).map fun ch => List.range' ch.1 ch.2).flatten
        = List.range' off (s - off) := by
  induction n with
  | zero =>
    intro off h
    have h0 : s - off = 0 := by simp at h; omega
    simp [chunksGo, h0]
  | succ n ih =>
    intro off h
    rw [chunksGo]
    simp only [List.map_cons, List.flatten_cons]
    rw [ih (off + c) (by rw [Nat.mul_succ] at h; omega)]
    rcases le_or_lt (off + c) s with hle | hlt
    · rw [min_eq_left (by omega)]
      have happ := List.range'_append off c (s - (off + c)) 1
      simp only [one_mul] at happ
      rw [happ]
      congr 1
      omega
    · rw [min_eq_right (by omega)]
      have h2 : s - (off + c) = 0 := by omega
      rw [h2]
      simp

lemma le_mul_ceilDivNat (s c : Nat) (hc : 0 < c) (hs : 0 < s) :
    s ≤ c * ((s + c - 1) / c) := by
  have h1 := Nat.div_add_mod (s + c - 1) c
  have h2 : (s + c - 1) % c < c := Nat.mod_lt _ hc
  omega

lemma mul_ceilDivNat_lt (s c : Nat) (hc : 0 < c) (hs : 0 < s) :
    c * ((s + c - 1) / c) < s + c := by
  have h1 := Nat.div_add_mod (s + c - 1) c
  have h2 : (s + c - 1) % c < c := Nat.mod_lt _ hc
  omega

/-- Claim C3: for all positive file size `s`, threshold `t` and chunk
size `c`, the plan partitions `[0, s)` into contiguous, non-overlapping
chunks whose ordered union is exactly `[0, s)` (stated as: the
concatenation of the chunk byte ranges is exactly the interval);
when `s ≥ t` the chunk count is `ceil(s / c)` — the natural number
`(s + c - 1) / c`, pinned by `s ≤ c * count < s + c` — and when `s < t`
there is exactly one chunk; the concurrency cap is passed through; and
with the default configuration a 100 MB file yields 3 chunks of sizes
40 MB, 40 MB and 20 MB. -/
theorem plan_partitions (s t c m : Nat) (hs : 0 < s) (_ht : 0 < t) (hc : 0 < c) :
    (((plan s t c m).chunks.map fun ch => List.range' ch.1 ch.2).flatten = List.range s) ∧
    (t ≤ s →
      (plan s t c m).chunks.length = (s + c - 1) / c ∧
      s ≤ c * ((s + c - 1) / c) ∧ c * ((s + c - 1) / c) < s + c) ∧
    (s < t → (plan s t c m).chunks.length = 1) ∧
    (plan s t c m).max_concurrency = m ∧
    (default_plan (100 * _MB)).chunks
        = [(0, 40 * _MB), (40 * _MB, 40 * _MB), (80 * _MB, 20 * _MB)] := by
  refine ⟨?_, ?_, ?_, ?_, ?_⟩
  · unfold plan
    split
    · simp [List.range_eq_range']
    · rw [chunksGo_flatten c s _ 0 (by simpa using le_mul_ceilDivNat s c hc hs)]
      simp [List.range_eq_range']
  · intro hts
    unfold plan
    rw [if_neg (by omega)]
    exact ⟨chunksGo_length _ _ _ _, le_mul_ceilDivNat s c hc hs, mul_ceilDivNat_lt s c hc hs⟩
  · intro hst
    unfold plan
    rw [if_pos hst]
    rfl
  · unfold plan
    split <;> rfl
  · decide

/-- Witness for C3 at a five-byte file, threshold 3, chunk size 2. -/
theorem plan_partitions_witness :
    0 < 5 ∧ 0 < 3 ∧ 0 < 2 ∧
    ((((plan 5 3 2 1).chunks.map fun ch => List.range' ch.1 ch.2).flatten = List.range 5) ∧
      (3 ≤ 5 →
        (plan 5 3 2 1).chunks.length = (5 + 2 - 1) / 2 ∧
        5 ≤ 2 * ((5 + 2 - 1) / 2) ∧ 2 * ((5 + 2 - 1) / 2) < 5 + 2) ∧
      (5 < 3 → (plan 5 3 2 1).chunks.length = 1) ∧
      (plan 5 3 2 1).max_concurrency = 1 ∧
      (default_plan (100 * _MB)).chunks
          = [(0, 40 * _MB), (40 * _MB, 40 * _MB), (80 * _MB, 20 * _MB)]) :=
  ⟨by decide, by decide, by decide, plan_partitions 5 3 2 1 (by decide) (by decide) (by decide)⟩

/-- Object keys of the mounted bucket, at character granularity. -/
abbrev Key := List Char

/-- `HCPHandler.list_objects(True)` (NGPIris/hcp/hcp.py lines 200-220):
the keys of the objects in the mounted bucket. -/
def list_objects (bucket : List Key) : List Key := bucket

/-- `HCPHandler.delete_objects` (NGPIris/hcp/hcp.py lines 342-371): the
object listing is taken before the remote deletion; the remote
`delete_objects` call removes the listed keys (a key that does not
exist is simply not deleted — the S3 call does not fail); afterwards
`set(keys) - set(list_of_objects_before)` is reported as the keys that
could not be deleted because they did not exist.  Returns the bucket
after deletion together with the reported keys. -/
def delete_objects (bucket : List Key) (keys : List Key) : List Key × List Key :=
  let before := list_objects bucket
  let after := bucket.filter fun k => decide (k ∉ keys)
  let reported := keys.filter fun k => decide (k ∉ before)
  (after, reported)

/-- `HCPHandler.delete_object` (lines 373-383): `delete_objects` on the
single key. -/
def delete_object (bucket : List Key) (key : Key) : List Key × List Key :=
  delete_objects bucket [key]

/-- Claim C6: deleting keys that are partly or wholly absent from the
mounted bucket does not fail; exactly the keys absent from the object
listing taken before the deletion are reported back as not having
existed, and exactly the listed keys not named for deletion remain.  In
particular a single already-deleted key is reported as such. -/
theorem delete_objects_reports_missing (bucket keys : List Key) :
    (∀ k, k ∈ (delete_objects bucket keys).2 ↔ k ∈ keys ∧ k ∉ bucket) ∧
    (∀ k, k ∈ (delete_objects bucket keys).1 ↔ k ∈ bucket ∧ k ∉ keys) ∧
    (∀ key : Key, key ∉ bucket → (delete_object bucket key).2 = [key]) := by
  refine ⟨?_, ?_, ?_⟩
  · intro k
    simp [delete_objects, list_objects, List.mem_filter]
  · intro k
    simp [delete_objects, List.mem_filter]
  · intro key h
    simp [delete_object, delete_objects, list_objects, List.filter_cons, h]

/-- Witness for C6: deleting the absent key "a" from a bucket holding
only "b" reports "a" as not having existed. -/
theorem delete_objects_reports_missing_witness :
    "a".toList ∉ ["b".toList] ∧ (delete_object ["b".toList] "a".toList).2 = ["a".toList] :=
  ⟨by decide, (delete_objects_reports_missing ["b".toList] ["a".toList]).2.2 "a".toList (by decide)⟩

/-- The closed set of valid permissions of
`create_access_control_policy` (NGPIris/hcp/helpers.py line 13). -/
def valid_permissions : List String :=
  ["FULL_CONTROL", "WRITE", "WRITE_ACP", "READ", "READ_ACP"]

/-- One grant of the access-control policy: grantee ID, grantee type
(always "CanonicalUser") and the permission string. -/
structure Grant where
  id : String
  granteeType : String
  permission : String
deriving DecidableEq

/-- `create_access_control_policy` (NGPIris/hcp/helpers.py lines 8-24):
walks the user-to-permission mapping in order; an entry whose
permission is outside the closed set prints a message and calls
`exit()` — modelled as an error result — so no policy is ever produced
from an invalid permission; otherwise one grant per entry is built. -/
def create_access_control_policy : List (String × String) → Except Unit (List Grant)
  | [] => Except.ok []
  | (user_ID, permission) :: rest =>
    if permission ∈ valid_permissions then
      match create_access_control_policy rest with
      | Except.ok grants => Except.ok (⟨user_ID, "CanonicalUser", permission⟩ :: grants)
      | Except.error e => Except.error e
    else Except.error ()

/-- A request sent to the remote S3 API. -/
inductive S3Request where
  | putObjectAcl (bucket key : String) (grants : List Grant)
deriving DecidableEq

/-- `HCPHandler.modify_single_object_acl` (NGPIris/hcp/hcp.py lines
464-488): builds the access-control policy for the single
user-permission pair and sends `put_object_acl` with it; the policy
construction exits the process on an invalid permission, before the
request is made.  Returns the requests sent to the remote API and the
outcome. -/
def modify_single_object_acl (bucket_name key user_ID permission : String) :
    List S3Request × Except Unit Unit :=
  match create_access_control_policy [(user_ID, permission)] with
  | Except.error e => ([], Except.error e)
  | Except.ok grants => ([S3Request.putObjectAcl bucket_name key grants], Except.ok ())

/-- Claim C7: a permission outside the closed set
`{FULL_CONTROL, WRITE, WRITE_ACP, READ, READ_ACP}` makes the ACL
modification fail fast with no request sent to the remote API; a
permission inside the set produces exactly one grant carrying that
permission and the given principal identifier. -/
theorem modify_single_object_acl_validates (bucket_name key user_ID permission : String) :
    (permission ∉ valid_permissions →
      modify_single_object_acl bucket_name key user_ID permission = ([], Except.error ())) ∧
    (permission ∈ valid_permissions →
      modify_single_object_acl bucket_name key user_ID permission
        = ([S3Request.putObjectAcl bucket_name key [⟨user_ID, "CanonicalUser", permission⟩]],
            Except.ok ())) := by
  constructor
  · intro h
    simp [modify_single_object_acl, create_access_control_policy, h]
  · intro h
    simp [modify_single_object_acl, create_access_control_policy, h]

/-- Witness for C7: "OWNER" is rejected before any request; "WRITE"
yields exactly one grant. -/
theorem modify_single_object_acl_validates_witness :
    (("OWNER" : String) ∉ valid_permissions ∧
      modify_single_object_acl "bkt" "key" "user" "OWNER" = ([], Except.error ())) ∧
    (("WRITE" : String) ∈ valid_permissions ∧
      modify_single_object_acl "bkt" "key" "user" "WRITE"
        = ([S3Request.putObjectAcl "bkt" "key" [⟨"user", "CanonicalUser", "WRITE"⟩]],
            Except.ok ())) :=
  ⟨⟨by decide, (modify_single_object_acl_validates "bkt" "key" "user" "OWNER").1 (by decide)⟩,
    ⟨by decide, (modify_single_object_acl_validates "bkt" "key" "user" "WRITE").2 (by decide)⟩⟩

/-- Lower-casing a key: the parse library matches literal text
case-insensitively by default (`case_sensitive = False` in both its
`search` and `parse` entry points). -/
def lowerK (s : Key) : Key := s.map Char.toLower

/-- Whether `pat` occurs at the start of `s`. -/
def startsWithL : Key → Key → Bool
  | [], _ => true
  | _ :: _, [] => false
  | p :: ps, c :: cs => p == c && startsWithL ps cs

/-- Whether `pat` occurs somewhere inside `s` — the match performed by
the parse library's `search`. -/
def containsSub (pat : Key) : Key → Bool
  | [] => startsWithL pat []
  | c :: cs => startsWithL pat (c :: cs) || containsSub pat cs

/-- `HCPHandler.search_objects_in_bucket` (NGPIris/hcp/hcp.py lines
409-432): the keys of the mounted bucket in which the search string
occurs, case-insensitively. -/
def search_objects_in_bucket (bucket : List Key) (search_string : Key) : List Key :=
  (list_objects bucket).filter fun k => containsSub (lowerK search_string) (lowerK k)

/-- The `parse(key + "{}", s)` test of `delete_folder`: the whole of
`s` matches the literal `key` (case-insensitively) followed by at least
one character. -/
def parseUnderKey (key s : Key) : Bool :=
  startsWithL (lowerK key) (lowerK s) && decide (key.length < s.length)

inductive IrisError where
  | indexError
  | subfolderExists
deriving DecidableEq

/-- The folder key after `delete_folder`'s first step: "/" is appended
when the last character is not already "/" (on an empty key the
subscript `key[-1]` raises `IndexError` before this point). -/
def folderKey (key : Key) : Key :=
  if key.getLast? ≠ some '/' then key ++ ['/'] else key

/-- `HCPHandler.delete_folder` (NGPIris/hcp/hcp.py lines 385-407):
append "/" to the key when absent (`key[-1]` raises `IndexError` on an
empty key); collect the objects strictly inside the folder via the
case-insensitive `search_objects_in_bucket` and `parse` filters; if any
of them is itself folder-like (ends in "/"), raise `RuntimeError`
("There are subfolders in this folder...") without deleting anything;
otherwise delete those objects together with the folder key itself.
Returns the bucket after the call and the outcome. -/
def delete_folder (bucket : List Key) (key : Key) : List Key × Except IrisError Unit :=
  match key.getLast? with
  | none => (bucket, Except.error IrisError.indexError)
  | some last =>
    let key := if last ≠ '/' then key ++ ['/'] else key
    let object_path_in_folder :=
      (search_objects_in_bucket bucket key).filter fun s => parseUnderKey key s
    if object_path_in_folder.any fun s => s.getLast? == some '/' then
      (bucket, Except.error IrisError.subfolderExists)
    else
      ((delete_objects bucket (object_path_in_folder ++ [key])).1, Except.ok ())

lemma startsWithL_map (f : Char → Char) :
    ∀ p s : Key, startsWithL p s = true → startsWithL (p.map f) (s.map f) = true := by
  intro p
  induction p with
  | nil => intro s _; rfl
  | cons a ps ih =>
    intro s h
    cases s with
    | nil => exact absurd h (by simp [startsWithL])
    | cons c cs =>
      simp only [startsWithL, Bool.and_eq_true, beq_iff_eq] at h
      simp only [List.map_cons, startsWithL, Bool.and_eq_true, beq_iff_eq]
      exact ⟨by rw [h.1], ih cs h.2⟩

lemma startsWithL_containsSub (p s : Key) (h : startsWithL p s = true) :
    containsSub p s = true := by
  cases s with
  | nil => simpa [containsSub] using h
  | cons c cs => simp [containsSub, h]

/-- Claim C4 (amended to nonempty folder keys): for every nonempty
folder key, if any object under the prefix (the key with "/" appended
when absent) is itself folder-like — ends in "/" — then `delete_folder`
fails with the subfolder error and performs no deletions at all, the
bucket being returned unchanged; and whenever the call succeeds there
was no such folder-like child, every object under the prefix has been
deleted, and the folder key itself has been deleted. -/
theorem delete_folder_guard (bucket : List Key) (key : Key) (hk : key ≠ []) :
    ((∃ s ∈ bucket, startsWithL (folderKey key) s = true ∧
        (folderKey key).length < s.length ∧ s.getLast? = some '/') →
      delete_folder bucket key = (bucket, Except.error IrisError.subfolderExists)) ∧
    ((delete_folder bucket key).2 = Except.ok () →
      (¬ ∃ s ∈ bucket, startsWithL (folderKey key) s = true ∧
          (folderKey key).length < s.length ∧ s.getLast? = some '/') ∧
      (∀ s ∈ bucket, startsWithL (folderKey key) s = true →
        (folderKey key).length < s.length → s ∉ (delete_folder bucket key).1) ∧
      folderKey key ∉ (delete_folder bucket key).1) := by
  obtain ⟨last, hlast⟩ : ∃ l, key.getLast? = some l := by
    cases h : key.getLast? with
    | none => exact absurd (List.getLast?_eq_none_iff.mp h) hk
    | some l => exact ⟨l, rfl⟩
  have hfk : folderKey key = if last ≠ '/' then key ++ ['/'] else key := by
    simp [folderKey, hlast]
  have hdf : delete_folder bucket key =
      if ((search_objects_in_bucket bucket (folderKey key)).filter
            fun s => parseUnderKey (folderKey key) s).any (fun s => s.getLast? == some '/') then
        (bucket, Except.error IrisError.subfolderExists)
      else
        ((delete_objects bucket
            (((search_objects_in_bucket bucket (folderKey key)).filter
              fun s => parseUnderKey (folderKey key) s) ++ [folderKey key])).1,
          Except.ok ()) := by
    simp only [delete_folder, hlast, hfk]
  have hmem : ∀ s ∈ bucket, startsWithL (folderKey key) s = true →
      (folderKey key).length < s.length →
      s ∈ (search_objects_in_bucket bucket (folderKey key)).filter
          fun x => parseUnderKey (folderKey key) x := by
    intro s hs hsw hlen
    have hsw' : startsWithL (lowerK (folderKey key)) (lowerK s) = true :=
      startsWithL_map Char.toLower _ _ hsw
    refine List.mem_filter.mpr ⟨?_, ?_⟩
    · exact List.mem_filter.mpr ⟨hs, startsWithL_containsSub _ _ hsw'⟩
    · simp [parseUnderKey, hsw', hlen]
  constructor
  · rintro ⟨s, hs, hsw, hlen, hsl⟩
    rw [hdf, if_pos]
    exact List.any_eq_true.mpr ⟨s, hmem s hs hsw hlen, by simp [hsl]⟩
  · intro hok
    by_cases hany : ((search_objects_in_bucket bucket (folderKey key)).filter
        fun s => parseUnderKey (folderKey key) s).any (fun s => s.getLast? == some '/') = true
    · rw [hdf, if_pos hany] at hok
      exact absurd hok (by simp)
    · have hres : (delete_folder bucket key).1
          = bucket.filter fun k => decide
              (k ∉ ((search_objects_in_bucket bucket (folderKey key)).filter
                fun s => parseUnderKey (folderKey key) s) ++ [folderKey key]) := by
        rw [hdf, if_neg hany]
        simp [delete_objects]
      refine ⟨?_, ?_, ?_⟩
      · rintro ⟨s, hs, hsw, hlen, hsl⟩
        exact hany (List.any_eq_true.mpr ⟨s, hmem s hs hsw hlen, by simp [hsl]⟩)
      · intro s hs hsw hlen hmemfil
        rw [hres] at hmemfil
        have := (List.mem_filter.mp hmemfil).2
        simp only [decide_eq_true_eq] at this
        exact this (List.mem_append_left _ (hmem s hs hsw hlen))
      · intro hmemfil
        rw [hres] at hmemfil
        have := (List.mem_filter.mp hmemfil).2
        simp only [decide_eq_true_eq] at this
        exact this (List.mem_append_right _ (List.mem_singleton.mpr rfl))

/-- Witness for C4: deleting folder "f" while the bucket holds the
folder-like key "f/s/" fails with the subfolder error and leaves the
bucket unchanged. -/
theorem delete_folder_guard_witness :
    ("f".toList ≠ ([] : Key)) ∧
    (∃ s ∈ ["f/s/".toList], startsWithL (folderKey "f".toList) s = true ∧
        (folderKey "f".toList).length < s.length ∧ s.getLast? = some '/') ∧
    delete_folder ["f/s/".toList] "f".toList
      = (["f/s/".toList], Except.error IrisError.subfolderExists) :=
  ⟨by decide, by decide,
    (delete_folder_guard ["f/s/".toList] "f".toList (by decide)).1 (by decide)⟩

/-- Counterexample for C4 as stated: for the empty folder key, whose
prefix after appending "/" is "/", the bucket `["/a/"]` does contain a
folder-like object under the prefix, yet `delete_folder` raises
`IndexError` (from the subscript `key[-1]`), not the subfolder error
the claim promises. -/
theorem delete_folder_empty_key_cex :
    (∃ s ∈ ["/a/".toList], startsWithL (folderKey []) s = true ∧
        (folderKey []).length < s.length ∧ s.getLast? = some '/') ∧
    delete_folder ["/a/".toList] []
      = (["/a/".toList], Except.error IrisError.indexError) ∧
    (Except.error IrisError.indexError : Except IrisError Unit)
      ≠ Except.error IrisError.subfolderExists := by
  exact ⟨by decide, rfl, by simp⟩

/-- The loop of `HCPHandler.upload_folder` (NGPIris/hcp/hcp.py lines
337-340): upload each directory entry in order via `upload_file`, whose
outcome is the external `upload` collaborator; an exception raised for
one file propagates out of the loop immediately.  Returns the upload
calls performed, as (local path, object key) pairs, and the outcome. -/
def uploadFolderGo (upload : String → String → Except String Unit)
    (local_folder_path key : String) :
    List String → List (String × String) × Except String Unit
  | [] => ([], Except.ok ())
  | f :: fs =>
    match upload (local_folder_path ++ f) (key ++ f) with
    | Except.error e => ([(local_folder_path ++ f, key ++ f)], Except.error e)
    | Except.ok _ =>
      let r := uploadFolderGo upload local_folder_path key fs
      ((local_folder_path ++ f, key ++ f) :: r.1, r.2)

/-- `HCPHandler.upload_folder` (NGPIris/hcp/hcp.py lines 323-340) after
the existence check on the local folder (the local-filesystem
collaborator): an empty `key` defaults to `local_folder_path`, and each
entry `f` of `listdir(local_folder_path)` is uploaded from
`local_folder_path + f` under object key `key + f` — plain string
concatenation, with no separator inserted. -/
def upload_folder (upload : String → String → Except String Unit)
    (local_folder_path key : String) (filenames : List String) :
    List (String × String) × Except String Unit :=
  let key := if key = "" then local_folder_path else key
  uploadFolderGo upload local_folder_path key filenames

lemma uploadFolderGo_all_ok (upload : String → String → Except String Unit)
    (folder key : String) (filenames : List String)
    (h : ∀ l k, upload l k = Except.ok ()) :
    (uploadFolderGo upload folder key filenames).1
      = filenames.map fun f => (folder ++ f, key ++ f) := by
  induction filenames with
  | nil => rfl
  | cons f fs ih => simp [uploadFolderGo, h, ih]

lemma uploadFolderGo_first_error (upload : String → String → Except String Unit)
    (folder key : String) (f : String) (post : List String) (e : String) :
    ∀ pre : List String,
      (∀ g ∈ pre, upload (folder ++ g) (key ++ g) = Except.ok ()) →
      upload (folder ++ f) (key ++ f) = Except.error e →
      uploadFolderGo upload folder key (pre ++ f :: post)
        = ((pre ++ [f]).map fun g => (folder ++ g, key ++ g), Except.error e) := by
  intro pre
  induction pre with
  | nil =>
    intro _ hf
    simp [uploadFolderGo, hf]
  | cons g gs ih =>
    intro hpre hf
    have hg := hpre g (by simp)
    simp only [List.cons_append, uploadFolderGo, hg, List.append_eq]
    rw [ih (fun x hx => hpre x (by simp [hx])) hf]
    simp

/-- Claim C10: each directory entry `f` of the local folder is uploaded
from local path `local_folder_path + f` under object key `key + f`,
formed by plain string concatenation with no "/" separator inserted,
and an empty `key` defaults the object-key prefix to
`local_folder_path` itself (so a folder path without a trailing "/"
fuses the last local path component with the file name). -/
theorem upload_folder_key_concatenation (upload : String → String → Except String Unit)
    (local_folder_path key : String) (filenames : List String)
    (h : ∀ l k, upload l k = Except.ok ()) :
    (upload_folder upload local_folder_path key filenames).1
      = filenames.map fun f =>
          (local_folder_path ++ f, (if key = "" then local_folder_path else key) ++ f) := by
  unfold upload_folder
  exact uploadFolderGo_all_ok upload local_folder_path _ filenames h

/-- Witness for C10: uploading folder "data" (no trailing slash) with an
empty destination key produces the fused keys "dataa" and "datab". -/
theorem upload_folder_key_concatenation_witness :
    (upload_folder (fun _ _ => Except.ok ()) "data" "" ["a", "b"]).1
      = ["a", "b"].map fun f => ("data" ++ f, (if ("" : String) = "" then "data" else "") ++ f) :=
  upload_folder_key_concatenation (fun _ _ => Except.ok ()) "data" "" ["a", "b"]
    (fun _ _ => rfl)

/-- Claim C5 (amended): a folder upload runs the per-file uploads
sequentially in directory order and stops at the first failure: the
files before it are uploaded, the failing file's error propagates to
the caller, and the sibling files after the first failure are not
attempted at all; the caller learns only of the first failing file. -/
theorem upload_folder_stops_at_first_failure (upload : String → String → Except String Unit)
    (local_folder_path key : String) (pre : List String) (f : String) (post : List String)
    (e : String)
    (hpre : ∀ g ∈ pre,
      upload (local_folder_path ++ g)
          ((if key = "" then local_folder_path else key) ++ g) = Except.ok ())
    (hf : upload (local_folder_path ++ f)
        ((if key = "" then local_folder_path else key) ++ f) = Except.error e) :
    upload_folder upload local_folder_path key (pre ++ f :: post)
      = ((pre ++ [f]).map fun g =>
            (local_folder_path ++ g, (if key = "" then local_folder_path else key) ++ g),
          Except.error e) := by
  unfold upload_folder
  exact uploadFolderGo_first_error upload local_folder_path _ f post e pre hpre hf

/-- Witness for C5's amended statement: with the second of three files
failing, only the first two uploads are performed. -/
theorem upload_folder_stops_at_first_failure_witness :
    ((∀ g ∈ ["a"], (fun l _ => if l = "d/b" then Except.error "boom" else Except.ok ())
          (("d/" : String) ++ g) ((if ("" : String) = "" then "d/" else "") ++ g)
        = Except.ok ()) ∧
      upload_folder (fun l _ => if l = "d/b" then Except.error "boom" else Except.ok ())
          "d/" "" (["a"] ++ "b" :: ["c"])
        = ((["a"] ++ ["b"]).map fun g =>
              (("d/" : String) ++ g, (if ("" : String) = "" then "d/" else "") ++ g),
            Except.error "boom")) :=
  ⟨by intro g hg; simp only [List.mem_singleton] at hg; subst hg; rfl,
    upload_folder_stops_at_first_failure
      (fun l _ => if l = "d/b" then Except.error "boom" else Except.ok ())
      "d/" "" ["a"] "b" ["c"] "boom"
      (by intro g hg; simp only [List.mem_singleton] at hg; subst hg; rfl) rfl⟩

/-- The per-file upload outcome used in the concrete counterexample:
the first file "d/a" fails, every other upload would succeed. -/
def uploadOracleCex : String → String → Except String Unit :=
  fun local_path _ => if local_path = "d/a" then Except.error "network failure" else Except.ok ()

/-- Counterexample for C5 as stated: in a folder with entries "a" and
"b" where the upload of "a" fails, the sibling "b" is never attempted —
its upload would have succeeded, yet no upload call for it is performed
and the caller sees only the first failure. -/
theorem upload_folder_aborts_siblings_cex :
    (upload_folder uploadOracleCex "d/" "" ["a", "b"]).1 = [("d/a", "d/a")] ∧
    ("d/b", "d/b") ∉ (upload_folder uploadOracleCex "d/" "" ["a", "b"]).1 ∧
    (upload_folder uploadOracleCex "d/" "" ["a", "b"]).2 = Except.error "network failure" ∧
    uploadOracleCex "d/b" "d/b" = Except.ok () := by
  refine ⟨rfl, by decide, rfl, rfl⟩

end Iris
